import Mathlib

/-!
Verification development for the image-grabber utility (src/main.go).

The program is shallowly embedded as follows.

* Go strings are `GoStr` (lists of characters; witnesses use ASCII only,
  where characters and bytes coincide).
* `urlParse` models the behaviour of Go's `net/url.Parse` on the inputs
  relevant here: control-character rejection, fragment and query cutting,
  scheme extraction, authority/host extraction with port validation, and
  percent-decoding of the path (each decoding failure is a parse error).
  Host characters and userinfo are not further validated; this only widens
  the set of accepted URLs and is irrelevant to the claims, which either
  quantify over successfully parsed URLs or exhibit concrete parse errors.
* `getFileName` models `getFileName` from src/main.go; a parse error makes
  the Go function panic (abort the process), which the model records with
  the `GoOutcome.panicked` constructor — there is no recoverable error
  return in this function.
* `WriteCounter.Write` models the byte counter; `Total` is a Go `uint64`,
  so additions are taken modulo `2 ^ 64`.
* `DownloadFile` models `DownloadFile` from src/main.go as a function of an
  environment `Env` describing the behaviour of the outside world (whether
  `os.Create` succeeds, whether `http.Get` succeeds, the chunks delivered
  by the response body, whether the stream ends in an error, which file
  writes succeed, whether the rename succeeds).  It returns the Go result
  value, the sequence of filesystem operations performed (`FsOp`), and the
  final value of the byte counter.  Filesystem operations are interpreted
  against a filesystem model `FS` by `applyOp`/`runTrace`.
* `mainRun` models `main` from src/main.go: the argument-count check, the
  stat/MkdirAll step (whose error is assigned but never checked), and the
  crawl loop that downloads every discovered img src, panicking on the
  first failed download.
-/

/-- Go strings, modelled as lists of characters. -/
abbrev GoStr := List Char

/-- Embed a Lean string literal as a `GoStr`. -/
def str (s : String) : GoStr := s.data

/-- Parse errors of the `net/url.Parse` model, one constructor per distinct
failure of the Go parser that the model reproduces. -/
inductive UrlError where
  | invalidControl
  | missingScheme
  | invalidEscape
  | invalidPort
  | missingBracket
  | colonSegment
deriving DecidableEq

/-- The components of a parsed URL that the program can observe
(`getFileName` reads only `Path`; `getHostName` reads `Scheme` and
`Host`). -/
structure URL where
  Scheme : GoStr
  Host : GoStr
  Path : GoStr
  RawQuery : GoStr
  Fragment : GoStr
deriving DecidableEq

instance {ε α : Type} [DecidableEq ε] [DecidableEq α] : DecidableEq (Except ε α) := fun a b =>
  match a, b with
  | .error e, .error f =>
    if h : e = f then .isTrue (by rw [h]) else .isFalse (by simp [h])
  | .ok x, .ok y =>
    if h : x = y then .isTrue (by rw [h]) else .isFalse (by simp [h])
  | .error _, .ok _ => .isFalse (by simp)
  | .ok _, .error _ => .isFalse (by simp)

/-- Model of Go's `stringContainsCTLByte`: an ASCII control character
anywhere in the URL makes `Parse` fail. -/
def containsCTL (s : GoStr) : Bool :=
  s.any fun c => c.toNat < 32 || c.toNat == 127

/-- Model of `strings.Cut` with a one-character separator: the part before
the first occurrence, and the part after it when the separator occurs. -/
def cutChar (sep : Char) : GoStr → GoStr × Option GoStr
  | [] => ([], none)
  | c :: cs =>
    if c = sep then ([], some cs)
    else
      let r := cutChar sep cs
      (c :: r.1, r.2)

/-- Worker for the scheme scanner of `net/url.Parse` (`getScheme`): `orig`
is the whole input, the second argument the characters not yet scanned, the
third the scheme characters already accepted, the fourth whether we are
still at index 0. -/
def getSchemeAux (orig : GoStr) : GoStr → GoStr → Bool → Except UrlError (GoStr × GoStr)
  | [], _, _ => .ok ([], orig)
  | c :: cs, acc, first =>
    if c.isAlpha then getSchemeAux orig cs (acc ++ [c]) false
    else if (c.isDigit || c = '+' || c = '-' || c = '.') && !first then
      getSchemeAux orig cs (acc ++ [c]) false
    else if c = ':' then
      if first then .error .missingScheme
      else .ok (acc.map Char.toLower, cs)
    else .ok ([], orig)

/-- Model of `getScheme` from `net/url`: returns the (lower-cased) scheme
and the rest, or the whole string when there is no scheme. -/
def getSchemeGo (s : GoStr) : Except UrlError (GoStr × GoStr) :=
  getSchemeAux s s [] true

/-- Hexadecimal digit value of a character, if any. -/
def unhex (c : Char) : Option Nat :=
  if '0' ≤ c ∧ c ≤ '9' then some (c.toNat - 48)
  else if 'a' ≤ c ∧ c ≤ 'f' then some (c.toNat - 87)
  else if 'A' ≤ c ∧ c ≤ 'F' then some (c.toNat - 55)
  else none

/-- Model of percent-decoding as performed by `net/url.unescape`: a `%`
must be followed by two hexadecimal digits, otherwise parsing fails. -/
def unescape : GoStr → Except UrlError GoStr
  | [] => .ok []
  | ['%'] => .error .invalidEscape
  | ['%', _] => .error .invalidEscape
  | '%' :: a :: b :: rest =>
    match unhex a, unhex b with
    | some x, some y =>
      match unescape rest with
      | .ok d => .ok (Char.ofNat (16 * x + y) :: d)
      | .error e => .error e
    | _, _ => .error .invalidEscape
  | c :: cs =>
    match unescape cs with
    | .ok d => .ok (c :: d)
    | .error e => .error e

/-- Model of `net/url.validOptionalPort`: empty, or a colon followed by
decimal digits only. -/
def validOptionalPort : GoStr → Bool
  | [] => true
  | ':' :: rest => rest.all Char.isDigit
  | _ => false

/-- Split a string at the last occurrence of a character: `some (a, b)`
with the input equal to `a ++ [sep] ++ b` and `sep` not in `b`, or `none`
when the character does not occur. -/
def splitAtLastChar (sep : Char) : GoStr → Option (GoStr × GoStr)
  | [] => none
  | c :: cs =>
    match splitAtLastChar sep cs with
    | some r => some (c :: r.1, r.2)
    | none => if c = sep then some ([], cs) else none

/-- Model of `net/url.parseHost`: bracketed hosts need a closing bracket
and a valid optional port after it, other hosts need decimal digits after
the last colon; the host is percent-decoded. -/
def parseHost (host : GoStr) : Except UrlError GoStr :=
  match host with
  | '[' :: _ =>
    match splitAtLastChar ']' host with
    | none => .error .missingBracket
    | some r => if validOptionalPort r.2 then unescape host else .error .invalidPort
  | _ =>
    match splitAtLastChar ':' host with
    | some r => if r.2.all Char.isDigit then unescape host else .error .invalidPort
    | none => unescape host

/-- Model of `net/url.parseAuthority`: the userinfo before the last `@` is
dropped (its validation is not modelled), the rest is parsed as a host. -/
def parseAuthority (authority : GoStr) : Except UrlError GoStr :=
  match splitAtLastChar '@' authority with
  | some r => parseHost r.2
  | none => parseHost authority

/-- Does the string start with one slash? -/
def startsWithSlash : GoStr → Bool
  | '/' :: _ => true
  | _ => false

/-- Does the string start with two slashes? -/
def startsWith2Slash : GoStr → Bool
  | '/' :: '/' :: _ => true
  | _ => false

/-- Does the string start with three slashes? -/
def startsWith3Slash : GoStr → Bool
  | '/' :: '/' :: '/' :: _ => true
  | _ => false

/-- Model of `net/url.parse(rawURL, viaRequest := false)` on an input whose
fragment has already been cut off: control-character check, `*` special
case, scheme extraction, query cutting, opaque URLs, the colon check on the
first path segment of scheme-less relative URLs, authority extraction, and
percent-decoding of the path. -/
def parseGo (rawURL : GoStr) : Except UrlError URL := do
  if containsCTL rawURL then throw .invalidControl
  if rawURL = str "*" then
    return ⟨[], [], str "*", [], []⟩
  let sr ← getSchemeGo rawURL
  let scheme := sr.1
  let cutQ := cutChar '?' sr.2
  let rest1 := cutQ.1
  let rawQuery := cutQ.2.getD []
  if !startsWithSlash rest1 then
    if scheme ≠ [] then
      return ⟨scheme, [], [], rawQuery, []⟩
    else
      if ':' ∈ (cutChar '/' rest1).1 then throw .colonSegment
  if (scheme ≠ [] || !startsWith3Slash rest1) && startsWith2Slash rest1 then
    let cutA := cutChar '/' (rest1.drop 2)
    let rest2 := match cutA.2 with
      | some after => '/' :: after
      | none => ([] : GoStr)
    let host ← parseAuthority cutA.1
    let path ← unescape rest2
    return ⟨scheme, host, path, rawQuery, []⟩
  else
    let path ← unescape rest1
    return ⟨scheme, [], path, rawQuery, []⟩

/-- Model of `net/url.Parse`: cut the fragment at the first `#`, parse the
rest, and percent-decode the fragment. -/
def urlParse (rawURL : GoStr) : Except UrlError URL :=
  match cutChar '#' rawURL with
  | (u, none) => parseGo u
  | (u, some frag) =>
    match parseGo u with
    | .error e => .error e
    | .ok base =>
      match unescape frag with
      | .error e => .error e
      | .ok f => .ok ⟨base.Scheme, base.Host, base.Path, base.RawQuery, f⟩

/-- Model of `strings.Split` with a one-character separator; the result is
never empty. -/
def splitGo (sep : Char) : GoStr → List GoStr
  | [] => [[]]
  | c :: cs =>
    if c = sep then [] :: splitGo sep cs
    else
      match splitGo sep cs with
      | [] => [[c]]
      | s :: rest => (c :: s) :: rest

/-- Outcome of a Go function that can panic: either a returned value, or a
panic that aborts the whole process (nothing is returned to the caller). -/
inductive GoOutcome (α : Type) where
  | ok (a : α)
  | panicked (e : UrlError)
deriving DecidableEq

/-- The modulus of Go `uint64` arithmetic. -/
def M64 : Nat := 2 ^ 64

/-- Model of `getFileName` from src/main.go: parse the URL (panicking on a
parse error), split the path on `/`, return the last segment
(`segments[len(segments)-1]`; `splitGo` never returns an empty list, so
`getLastD` is exactly that indexing). -/
def getFileName (fullUrlFile : GoStr) : GoOutcome GoStr :=
  match urlParse fullUrlFile with
  | .error e => .panicked e
  | .ok fileUrl => .ok ((splitGo '/' fileUrl.Path).getLastD [])

/-- Model of the `WriteCounter` struct from src/main.go; `Total` is a Go
`uint64` and therefore lives below `2 ^ 64`. -/
structure WriteCounter where
  Total : Nat
deriving DecidableEq

/-- Model of `(*WriteCounter).Write` from src/main.go: add the chunk length
to `Total` (`uint64` addition, i.e. modulo `2 ^ 64`) and return the chunk
length together with a nil error.  Printing the progress has no modelled
effect. -/
def WriteCounter.Write (wc : WriteCounter) (p : List Nat) : WriteCounter × Nat × Option String :=
  (⟨(wc.Total + p.length) % M64⟩, p.length, none)

/-- Filesystem operations performed by `DownloadFile`: `os.Create` (create
or truncate to empty), a file write appending a chunk, and `os.Rename`. -/
inductive FsOp where
  | create (path : GoStr)
  | write (path : GoStr) (chunk : List Nat)
  | rename (src dst : GoStr)
deriving DecidableEq

/-- A filesystem: a map from paths to file contents (byte lists). -/
def FS : Type := GoStr → Option (List Nat)

/-- Interpretation of one filesystem operation. -/
def applyOp (fs : FS) : FsOp → FS
  | .create p => fun q => if q = p then some [] else fs q
  | .write p c => fun q => if q = p then some ((fs p).getD [] ++ c) else fs q
  | .rename s d => fun q => if q = d then fs s else if q = s then none else fs q

/-- Interpretation of a sequence of filesystem operations. -/
def runTrace (fs : FS) (ops : List FsOp) : FS :=
  ops.foldl applyOp fs

/-- Behaviour of the outside world during one `DownloadFile` call: whether
`os.Create` succeeds, whether `http.Get` succeeds, the chunks delivered by
the response body, whether the body ends in a mid-stream read error instead
of EOF, which chunk writes to the staging file succeed (by chunk index),
and whether the final `os.Rename` succeeds. -/
structure Env where
  createOk : Bool
  getOk : Bool
  chunks : List (List Nat)
  bodyTruncErr : Bool
  writeOk : Nat → Bool
  renameOk : Bool

/-- The distinct failure sources of `DownloadFile`; each corresponds to one
`return err` site in src/main.go. -/
inductive DLErr where
  | createErr
  | networkErr
  | writeErr
  | readErr
  | renameErr
deriving DecidableEq

/-- Result of a `DownloadFile` call: a panic (from `getFileName`), an
error return, or a nil return. -/
inductive DLResult where
  | panicked
  | err (e : DLErr)
  | ok
deriving DecidableEq

/-- Observable outcome of a `DownloadFile` call: the result value, the
sequence of filesystem operations performed, and the final value of the
byte counter. -/
structure DLOut where
  result : DLResult
  trace : List FsOp
  counter : Nat
deriving DecidableEq

/-- Model of the `io.Copy(out, io.TeeReader(resp.Body, counter))` loop: for
each chunk, the tee first routes the chunk through `WriteCounter.Write`
(which never fails), then the chunk is written to the staging file; a
failed write stops the loop.  Returns the final counter, the number of
chunks written to the file, and whether every chunk was written. -/
def copyLoop (writeOk : Nat → Bool) : List (List Nat) → Nat → Nat → Nat × Nat × Bool
  | [], _, wc => (wc, 0, true)
  | c :: cs, idx, wc =>
    let wc1 := ((WriteCounter.Write ⟨wc⟩ c).1).Total
    if writeOk idx then
      let r := copyLoop writeOk cs (idx + 1) wc1
      (r.1, r.2.1 + 1, r.2.2)
    else
      (wc1, 0, false)

/-- Final byte-counter value of the copy loop in environment `env`. -/
def copyCounter (env : Env) : Nat := (copyLoop env.writeOk env.chunks 0 0).1

/-- Number of chunks written to the staging file in environment `env`. -/
def copyWritten (env : Env) : Nat := (copyLoop env.writeOk env.chunks 0 0).2.1

/-- Whether the copy loop finished without a write error in `env`. -/
def copyFlag (env : Env) : Bool := (copyLoop env.writeOk env.chunks 0 0).2.2

/-- The final path `dir + "/" + fileName` used by `DownloadFile`. -/
def finalPath (dir name : GoStr) : GoStr := dir ++ ['/'] ++ name

/-- The staging path `dir + "/" + fileName + ".tmp"` used by
`DownloadFile`. -/
def stagingPath (dir name : GoStr) : GoStr := dir ++ ['/'] ++ name ++ ['.', 't', 'm', 'p']

/-- The filesystem operations of the create-and-copy phase of
`DownloadFile` in environment `env`: create (truncate) the staging file,
then write the chunks that the copy loop managed to write. -/
def wopsOf (env : Env) (dir name : GoStr) : List FsOp :=
  FsOp.create (stagingPath dir name) ::
    (env.chunks.take (copyWritten env)).map (FsOp.write (stagingPath dir name))

/-- Model of `DownloadFile` from src/main.go: derive the file name (a parse
error panics), create the staging file, issue the request, copy the body
through the tee into the staging file, and rename the staging file to the
final name; each failure returns the corresponding error. -/
def DownloadFile (env : Env) (url dir : GoStr) : DLOut :=
  match getFileName url with
  | .panicked _ => ⟨.panicked, [], 0⟩
  | .ok fileName =>
    if env.createOk = false then ⟨.err .createErr, [], 0⟩
    else if env.getOk = false then
      ⟨.err .networkErr, [.create (stagingPath dir fileName)], 0⟩
    else if copyFlag env = false then
      ⟨.err .writeErr, wopsOf env dir fileName, copyCounter env⟩
    else if env.bodyTruncErr then
      ⟨.err .readErr, wopsOf env dir fileName, copyCounter env⟩
    else if env.renameOk = false then
      ⟨.err .renameErr, wopsOf env dir fileName, copyCounter env⟩
    else
      ⟨.ok, wopsOf env dir fileName
          ++ [.rename (stagingPath dir fileName) (finalPath dir fileName)],
        copyCounter env⟩

/-- Does the environment make some step of `DownloadFile` fail? -/
def failEnv (env : Env) : Bool :=
  !env.createOk || !env.getOk || !copyFlag env || env.bodyTruncErr || !env.renameOk

/-- The error variant surfaced by the first failing step of `DownloadFile`
in environment `env`. -/
def failureKind (env : Env) : DLErr :=
  if env.createOk = false then .createErr
  else if env.getOk = false then .networkErr
  else if copyFlag env = false then .writeErr
  else if env.bodyTruncErr then .readErr
  else .renameErr

/-- Behaviour of the outside world during one run of `main`: whether the
destination directory already exists, whether `os.MkdirAll` succeeds, the
img srcs discovered by the crawl, and the download environment of each
src. -/
structure MainEnv where
  dirExists : Bool
  mkdirOk : Bool
  imgSrcs : List GoStr
  dlEnv : GoStr → Env

/-- Outcome of a run of `main`: usage message and exit 1, a panic from the
img-src handler, or normal completion. -/
inductive MainOutcome where
  | usageExit
  | panicked
  | completed
deriving DecidableEq

/-- Observable outcome of a run of `main`. -/
structure MainOut where
  outcome : MainOutcome
  mkdirAttempted : Bool
  crawled : Bool
deriving DecidableEq

/-- Model of the `OnHTML("img[src]", ...)` handler loop of `main`: download
each discovered src in order; the handler panics on the first download that
does not return nil. -/
def runHandlers (env : MainEnv) (dir : GoStr) : List GoStr → MainOutcome
  | [] => .completed
  | src :: rest =>
    match (DownloadFile (env.dlEnv src) src dir).result with
    | .ok => runHandlers env dir rest
    | _ => .panicked

/-- Model of `main` from src/main.go: with a wrong argument count print the
usage message and exit 1; otherwise stat the directory, call `os.MkdirAll`
when it does not exist — the error of that call is assigned to `err` and
never checked, so `env.mkdirOk` is ignored — and crawl, downloading every
discovered img src. -/
def mainRun (env : MainEnv) (args : List GoStr) : MainOut :=
  if args.length ≠ 3 then ⟨.usageExit, false, false⟩
  else ⟨runHandlers env (args.getD 2 []) env.imgSrcs, !env.dirExists, true⟩

/-! Helper lemmas about the filesystem interpretation, the copy loop, and
the case analysis of `DownloadFile`. -/

theorem staging_ne_final (dir name : GoStr) : stagingPath dir name ≠ finalPath dir name := by
  intro h
  have hl := congrArg List.length h
  simp [stagingPath, finalPath] at hl

theorem applyOp_create_ne (fs : FS) (p q : GoStr) (h : q ≠ p) :
    applyOp fs (FsOp.create p) q = fs q := by
  simp [applyOp, h]

theorem applyOp_write_ne (fs : FS) (p q : GoStr) (c : List Nat) (h : q ≠ p) :
    applyOp fs (FsOp.write p c) q = fs q := by
  simp [applyOp, h]

theorem runTrace_stable (p q : GoStr) (hq : q ≠ p) (ops : List FsOp) :
    ∀ fs : FS, (∀ op ∈ ops, op = FsOp.create p ∨ ∃ c, op = FsOp.write p c) →
      runTrace fs ops q = fs q := by
  induction ops with
  | nil => intro fs _; rfl
  | cons op rest ih =>
    intro fs h
    have hop := h op (List.mem_cons_self _ _)
    have hstep : applyOp fs op q = fs q := by
      rcases hop with h1 | ⟨c, h2⟩
      · subst h1; exact applyOp_create_ne fs p q hq
      · subst h2; exact applyOp_write_ne fs p q c hq
    calc runTrace fs (op :: rest) q
        = runTrace (applyOp fs op) rest q := rfl
      _ = applyOp fs op q := ih (applyOp fs op) fun o ho => h o (List.mem_cons_of_mem _ ho)
      _ = fs q := hstep

theorem runTrace_writes (p : GoStr) (l : List (List Nat)) :
    ∀ (fs : FS) (v : List Nat), fs p = some v →
      runTrace fs (l.map (FsOp.write p)) p = some (v ++ l.flatten) := by
  induction l with
  | nil =>
    intro fs v hv
    simpa [runTrace] using hv
  | cons c rest ih =>
    intro fs v hv
    have hstep : applyOp fs (FsOp.write p c) p = some (v ++ c) := by simp [applyOp, hv]
    calc runTrace fs ((c :: rest).map (FsOp.write p)) p
        = runTrace (applyOp fs (FsOp.write p c)) (rest.map (FsOp.write p)) p := rfl
      _ = some ((v ++ c) ++ rest.flatten) := ih _ _ hstep
      _ = some (v ++ (c :: rest).flatten) := by simp

theorem copyLoop_written_le (w : Nat → Bool) (cs : List (List Nat)) :
    ∀ idx wc : Nat, (copyLoop w cs idx wc).2.1 ≤ cs.length := by
  induction cs with
  | nil => intro idx wc; simp [copyLoop]
  | cons c rest ih =>
    intro idx wc
    by_cases h : w idx
    · simp [copyLoop, h, WriteCounter.Write]
      exact ih (idx + 1) _
    · simp [copyLoop, h]

theorem copyLoop_flag_all (w : Nat → Bool) (cs : List (List Nat)) :
    ∀ idx wc : Nat, (copyLoop w cs idx wc).2.2 = true →
      (copyLoop w cs idx wc).2.1 = cs.length
      ∧ (wc < M64 →
          (copyLoop w cs idx wc).1 = (wc + (cs.map List.length).sum) % M64) := by
  induction cs with
  | nil =>
    intro idx wc _
    refine ⟨by simp [copyLoop], fun h => ?_⟩
    simp [copyLoop]
    exact (Nat.mod_eq_of_lt h).symm
  | cons c rest ih =>
    intro idx wc hflag
    by_cases h : w idx
    · have hflag2 : (copyLoop w rest (idx + 1) ((wc + c.length) % M64)).2.2 = true := by
        simpa [copyLoop, h, WriteCounter.Write] using hflag
      have hmod : (wc + c.length) % M64 < M64 := Nat.mod_lt _ (by norm_num [M64])
      obtain ⟨hlen, hcnt⟩ := ih (idx + 1) ((wc + c.length) % M64) hflag2
      refine ⟨?_, fun _ => ?_⟩
      · simp [copyLoop, h, WriteCounter.Write, hlen]
      · have hrec := hcnt hmod
        simp [copyLoop, h, WriteCounter.Write, hrec, Nat.mod_add_mod, Nat.add_assoc]
    · simp [copyLoop, h] at hflag

theorem copyWritten_of_flag (env : Env) (h : copyFlag env = true) :
    copyWritten env = env.chunks.length :=
  (copyLoop_flag_all env.writeOk env.chunks 0 0 h).1

theorem copyWritten_le (env : Env) : copyWritten env ≤ env.chunks.length :=
  copyLoop_written_le env.writeOk env.chunks 0 0

theorem copyCounter_of_flag (env : Env) (h : copyFlag env = true) :
    copyCounter env = (env.chunks.map List.length).sum % M64 := by
  have := (copyLoop_flag_all env.writeOk env.chunks 0 0 h).2 (by norm_num [M64])
  simpa [copyCounter] using this

theorem wops_mem (env : Env) (dir name : GoStr) (op : FsOp) (hop : op ∈ wopsOf env dir name) :
    op = FsOp.create (stagingPath dir name)
    ∨ ∃ c, op = FsOp.write (stagingPath dir name) c := by
  simp only [wopsOf, List.mem_cons, List.mem_map] at hop
  rcases hop with h | ⟨c, _, hc⟩
  · exact Or.inl h
  · exact Or.inr ⟨c, hc.symm⟩

theorem rename_not_mem_wops (env : Env) (dir name s d : GoStr) :
    FsOp.rename s d ∉ wopsOf env dir name := by
  intro hmem
  rcases wops_mem env dir name _ hmem with h | ⟨c, h⟩ <;> simp at h

theorem wops_staging (env : Env) (dir name : GoStr) (fs : FS) :
    runTrace fs (wopsOf env dir name) (stagingPath dir name)
      = some ((env.chunks.take (copyWritten env)).flatten) := by
  have hstep : applyOp fs (FsOp.create (stagingPath dir name)) (stagingPath dir name)
      = some [] := by simp [applyOp]
  calc runTrace fs (wopsOf env dir name) (stagingPath dir name)
      = runTrace (applyOp fs (FsOp.create (stagingPath dir name)))
          ((env.chunks.take (copyWritten env)).map (FsOp.write (stagingPath dir name)))
          (stagingPath dir name) := rfl
    _ = some ([] ++ (env.chunks.take (copyWritten env)).flatten) :=
        runTrace_writes _ _ _ _ hstep
    _ = some ((env.chunks.take (copyWritten env)).flatten) := by simp

theorem wops_other (env : Env) (dir name : GoStr) (fs : FS) (q : GoStr)
    (hq : q ≠ stagingPath dir name) :
    runTrace fs (wopsOf env dir name) q = fs q :=
  runTrace_stable _ q hq _ fs fun op hop => wops_mem env dir name op hop

theorem DF_createFail (env : Env) (url dir name : GoStr)
    (hname : getFileName url = .ok name) (h1 : env.createOk = false) :
    DownloadFile env url dir = ⟨.err .createErr, [], 0⟩ := by
  simp [DownloadFile, hname, h1]

theorem DF_getFail (env : Env) (url dir name : GoStr)
    (hname : getFileName url = .ok name) (h1 : env.createOk = true)
    (h2 : env.getOk = false) :
    DownloadFile env url dir
      = ⟨.err .networkErr, [FsOp.create (stagingPath dir name)], 0⟩ := by
  simp [DownloadFile, hname, h1, h2]

theorem DF_writeFail (env : Env) (url dir name : GoStr)
    (hname : getFileName url = .ok name) (h1 : env.createOk = true)
    (h2 : env.getOk = true) (h3 : copyFlag env = false) :
    DownloadFile env url dir
      = ⟨.err .writeErr, wopsOf env dir name, copyCounter env⟩ := by
  simp [DownloadFile, hname, h1, h2, h3]

theorem DF_readFail (env : Env) (url dir name : GoStr)
    (hname : getFileName url = .ok name) (h1 : env.createOk = true)
    (h2 : env.getOk = true) (h3 : copyFlag env = true)
    (h4 : env.bodyTruncErr = true) :
    DownloadFile env url dir
      = ⟨.err .readErr, wopsOf env dir name, copyCounter env⟩ := by
  simp [DownloadFile, hname, h1, h2, h3, h4]

theorem DF_renameFail (env : Env) (url dir name : GoStr)
    (hname : getFileName url = .ok name) (h1 : env.createOk = true)
    (h2 : env.getOk = true) (h3 : copyFlag env = true)
    (h4 : env.bodyTruncErr = false) (h5 : env.renameOk = false) :
    DownloadFile env url dir
      = ⟨.err .renameErr, wopsOf env dir name, copyCounter env⟩ := by
  simp [DownloadFile, hname, h1, h2, h3, h4, h5]

theorem DF_allOk (env : Env) (url dir name : GoStr)
    (hname : getFileName url = .ok name) (h1 : env.createOk = true)
    (h2 : env.getOk = true) (h3 : copyFlag env = true)
    (h4 : env.bodyTruncErr = false) (h5 : env.renameOk = true) :
    DownloadFile env url dir
      = ⟨.ok, wopsOf env dir name
            ++ [FsOp.rename (stagingPath dir name) (finalPath dir name)],
          copyCounter env⟩ := by
  simp [DownloadFile, hname, h1, h2, h3, h4, h5]

theorem splitGo_ne_nil (sep : Char) (s : GoStr) : splitGo sep s ≠ [] := by
  cases s with
  | nil => simp [splitGo]
  | cons c cs =>
    by_cases h : c = sep
    · simp [splitGo, h]
    · rcases hs : splitGo sep cs with _ | ⟨a, b⟩ <;> simp [splitGo, h, hs]

theorem splitGo_append (sep : Char) (ys : GoStr) :
    ∀ xs : GoStr, splitGo sep (xs ++ sep :: ys) = splitGo sep xs ++ splitGo sep ys := by
  intro xs
  induction xs with
  | nil => simp [splitGo]
  | cons c cs ih =>
    by_cases h : c = sep
    · simp [splitGo, h, ih]
    · rcases hs : splitGo sep cs with _ | ⟨a, b⟩
      · exact absurd hs (splitGo_ne_nil sep cs)
      · simp [splitGo, h, ih, hs]

theorem splitGo_no_sep (sep : Char) : ∀ b : GoStr, sep ∉ b → splitGo sep b = [b] := by
  intro b
  induction b with
  | nil => intro _; rfl
  | cons c cs ih =>
    intro h
    have hc : c ≠ sep := fun he => h (by simp [he])
    have hcs : sep ∉ cs := fun hm => h (List.mem_cons_of_mem _ hm)
    simp [splitGo, hc, ih hcs]

/-- C4: for every URL accepted by the parser whose path decomposes as
`a ++ "/" ++ b` with `b` a nonempty final segment containing no further
slash, `getFileName` returns exactly that final segment. -/
theorem C4_returns_final_path_segment (s : GoStr) (u : URL) (a b : GoStr)
    (hparse : urlParse s = .ok u) (hpath : u.Path = a ++ '/' :: b)
    (hnosep : '/' ∉ b) (_hne : b ≠ []) :
    getFileName s = .ok b := by
  simp [getFileName, hparse, hpath, splitGo_append, splitGo_no_sep '/' b hnosep,
    List.getLastD_concat]

theorem C4_returns_final_path_segment_witness :
    urlParse (str "https://example.com/a/b/pic.jpg")
        = .ok ⟨str "https", str "example.com", str "/a/b/pic.jpg", [], []⟩
    ∧ (str "/a/b/pic.jpg" : GoStr) = str "/a/b" ++ '/' :: str "pic.jpg"
    ∧ '/' ∉ str "pic.jpg"
    ∧ str "pic.jpg" ≠ ([] : GoStr)
    ∧ getFileName (str "https://example.com/a/b/pic.jpg") = .ok (str "pic.jpg") :=
  ⟨by decide, by decide, by decide, by decide,
    C4_returns_final_path_segment (str "https://example.com/a/b/pic.jpg")
      ⟨str "https", str "example.com", str "/a/b/pic.jpg", [], []⟩
      (str "/a/b") (str "pic.jpg") (by decide) (by decide) (by decide) (by decide)⟩

/-- C9: for every URL accepted by the parser whose path is empty (no
segments) or ends in a slash, `getFileName` returns the empty name, so the
staging file of such a Transfer would be `dir + "/.tmp"`. -/
theorem C9_empty_final_name (s : GoStr) (u : URL)
    (hparse : urlParse s = .ok u)
    (hpath : u.Path = [] ∨ ∃ p, u.Path = p ++ ['/']) :
    getFileName s = .ok []
    ∧ ∀ dir : GoStr, stagingPath dir [] = dir ++ ['/', '.', 't', 'm', 'p'] := by
  constructor
  · rcases hpath with h | ⟨p, h⟩
    · simp [getFileName, hparse, h, splitGo]
    · have hsplit : splitGo '/' (p ++ ['/']) = splitGo '/' p ++ [[]] := by
        simpa [splitGo] using splitGo_append '/' [] p
      simp [getFileName, hparse, h, hsplit, List.getLastD_concat]
  · intro dir
    simp [stagingPath]

theorem C9_empty_final_name_witness :
    urlParse (str "https://x.test/img/")
        = .ok ⟨str "https", str "x.test", str "/img/", [], []⟩
    ∧ ((str "/img/" : GoStr) = str "/img" ++ ['/'])
    ∧ getFileName (str "https://x.test/img/") = .ok []
    ∧ ∀ dir : GoStr, stagingPath dir [] = dir ++ ['/', '.', 't', 'm', 'p'] := by
  have h := C9_empty_final_name (str "https://x.test/img/")
    ⟨str "https", str "x.test", str "/img/", [], []⟩ (by decide)
    (Or.inr ⟨str "/img", by decide⟩)
  exact ⟨by decide, by decide, h.1, h.2⟩

/-- C6 (amended): for every input rejected by the URL parser, name
derivation panics — the process aborts and no name is produced — rather
than returning the parse error to the caller as a recoverable result. -/
theorem C6_parse_failure_aborts (s : GoStr) (e : UrlError)
    (hp : urlParse s = .error e) :
    getFileName s = .panicked e := by
  simp [getFileName, hp]

/-- C6 counterexample: on the malformed input `%zz` the parser fails and
`getFileName` panics (`GoOutcome.panicked`, modelling `panic(err)` which
aborts the process); it does not complete with a name, and no recoverable
error result is returned to the caller — refuting the claim that the parse
error is propagated as a recoverable error result. -/
theorem C6_counterexample_panic_not_error_result :
    urlParse (str "%zz") = .error .invalidEscape
    ∧ getFileName (str "%zz") = .panicked .invalidEscape :=
  ⟨by decide, by decide⟩

theorem C6_parse_failure_aborts_witness :
    urlParse (str "\x01") = .error .invalidControl
    ∧ getFileName (str "\x01") = .panicked .invalidControl :=
  ⟨by decide, C6_parse_failure_aborts (str "\x01") .invalidControl (by decide)⟩

/-- C7 counterexample: `Total` is a Go `uint64`, so it wraps modulo
`2 ^ 64`; after enough bytes a further `Write` makes `Total` strictly
decrease, refuting the unconditional monotonicity claim.  Starting from a
fresh counter, two chunks of `2 ^ 63 - 1` bytes followed by one of 2 bytes
wrap the counter from `2 ^ 64 - 2` to 0. -/
theorem C7_counterexample_total_wraps :
    ((WriteCounter.Write (WriteCounter.Write (WriteCounter.Write ⟨0⟩
          (List.replicate (2 ^ 63 - 1) 0)).1 (List.replicate (2 ^ 63 - 1) 0)).1
          (List.replicate 2 0)).1).Total
      < ((WriteCounter.Write (WriteCounter.Write ⟨0⟩
          (List.replicate (2 ^ 63 - 1) 0)).1 (List.replicate (2 ^ 63 - 1) 0)).1).Total := by
  rw [WriteCounter.Write, WriteCounter.Write, WriteCounter.Write, List.length_replicate,
    List.length_replicate]
  norm_num [M64]

/-- C7 (amended): each call `WriteCounter.Write p` adds `len p` to `Total`
modulo `2 ^ 64`; as long as the running total stays below `2 ^ 64` (true of
any physically realizable transfer) the addition is exact and `Total` is
monotonically non-decreasing. -/
theorem C7_total_monotone_without_overflow (wc : WriteCounter) (p : List Nat)
    (h : wc.Total + p.length < M64) :
    ((WriteCounter.Write wc p).1).Total = wc.Total + p.length
    ∧ wc.Total ≤ ((WriteCounter.Write wc p).1).Total := by
  have he : ((WriteCounter.Write wc p).1).Total = wc.Total + p.length := by
    simp [WriteCounter.Write, Nat.mod_eq_of_lt h]
  exact ⟨he, by omega⟩

theorem C7_total_monotone_without_overflow_witness :
    (⟨0⟩ : WriteCounter).Total + ([5, 6] : List Nat).length < M64
    ∧ (((WriteCounter.Write ⟨0⟩ [5, 6]).1).Total
          = (⟨0⟩ : WriteCounter).Total + ([5, 6] : List Nat).length
        ∧ (⟨0⟩ : WriteCounter).Total ≤ ((WriteCounter.Write ⟨0⟩ [5, 6]).1).Total) :=
  ⟨by norm_num [M64], C7_total_monotone_without_overflow ⟨0⟩ [5, 6] (by norm_num [M64])⟩

/-- C8: the progress observer is purely observational — for every counter
state and chunk, `WriteCounter.Write` returns the full chunk length and a
nil error, so it can neither fail the Transfer nor report a short count. -/
theorem C8_observer_never_fails (wc : WriteCounter) (p : List Nat) :
    (WriteCounter.Write wc p).2.1 = p.length ∧ (WriteCounter.Write wc p).2.2 = none :=
  ⟨rfl, rfl⟩

theorem runHandlers_mkdirOk_irrelevant (d : Bool) (b1 b2 : Bool) (srcs0 : List GoStr)
    (f : GoStr → Env) (dir : GoStr) (srcs : List GoStr) :
    runHandlers ⟨d, b1, srcs0, f⟩ dir srcs = runHandlers ⟨d, b2, srcs0, f⟩ dir srcs := by
  induction srcs with
  | nil => rfl
  | cons s rest ih =>
    cases hres : (DownloadFile (f s) s dir).result with
    | panicked => simp [runHandlers, hres]
    | err e => simp [runHandlers, hres]
    | ok => simp [runHandlers, hres, ih]

/-- C10: when exactly two user arguments are supplied and the destination
directory does not exist, `main` attempts the `MkdirAll` creation, and
since the returned error is assigned but never checked, the run proceeds to
crawl and download regardless of whether that creation succeeded. -/
theorem C10_mkdir_error_ignored (env : MainEnv) (args : List GoStr)
    (hlen : args.length = 3) (hdir : env.dirExists = false) :
    (mainRun env args).mkdirAttempted = true
    ∧ (mainRun env args).crawled = true
    ∧ ∀ b1 b2 : Bool,
        mainRun ⟨env.dirExists, b1, env.imgSrcs, env.dlEnv⟩ args
          = mainRun ⟨env.dirExists, b2, env.imgSrcs, env.dlEnv⟩ args := by
  refine ⟨by simp [mainRun, hlen, hdir], by simp [mainRun, hlen], ?_⟩
  intro b1 b2
  simp only [mainRun, hlen, ne_eq, not_true_eq_false, if_false]
  rw [runHandlers_mkdirOk_irrelevant env.dirExists b1 b2 env.imgSrcs env.dlEnv]

theorem C10_mkdir_error_ignored_witness :
    ([str "prog", str "https://page.test", str "/tmp/out"] : List GoStr).length = 3
    ∧ (⟨false, false, [], fun _ => ⟨true, true, [], false, fun _ => true, true⟩⟩
        : MainEnv).dirExists = false
    ∧ ((mainRun ⟨false, false, [], fun _ => ⟨true, true, [], false, fun _ => true, true⟩⟩
          [str "prog", str "https://page.test", str "/tmp/out"]).mkdirAttempted = true
      ∧ (mainRun ⟨false, false, [], fun _ => ⟨true, true, [], false, fun _ => true, true⟩⟩
          [str "prog", str "https://page.test", str "/tmp/out"]).crawled = true
      ∧ ∀ b1 b2 : Bool,
          mainRun ⟨false, b1, [], fun _ => ⟨true, true, [], false, fun _ => true, true⟩⟩
              [str "prog", str "https://page.test", str "/tmp/out"]
            = mainRun ⟨false, b2, [], fun _ => ⟨true, true, [], false, fun _ => true, true⟩⟩
              [str "prog", str "https://page.test", str "/tmp/out"]) :=
  ⟨by decide, rfl,
    C10_mkdir_error_ignored
      ⟨false, false, [], fun _ => ⟨true, true, [], false, fun _ => true, true⟩⟩
      [str "prog", str "https://page.test", str "/tmp/out"] (by decide) rfl⟩

theorem copyLoop_flag_of_writeOk (w : Nat → Bool) (hw : ∀ i, w i = true)
    (cs : List (List Nat)) : ∀ idx wc : Nat, (copyLoop w cs idx wc).2.2 = true := by
  induction cs with
  | nil => intro idx wc; simp [copyLoop]
  | cons c rest ih => intro idx wc; simp [copyLoop, hw idx, ih]

theorem errTrace_props (fs : FS) (dir name : GoStr) (t : List FsOp)
    (ht : ∀ op ∈ t, op = FsOp.create (stagingPath dir name)
        ∨ ∃ c, op = FsOp.write (stagingPath dir name) c) :
    (∀ k : Nat, runTrace fs (t.take k) (finalPath dir name) = fs (finalPath dir name))
    ∧ runTrace fs t (finalPath dir name) = fs (finalPath dir name)
    ∧ FsOp.rename (stagingPath dir name) (finalPath dir name) ∉ t := by
  have hfe : finalPath dir name ≠ stagingPath dir name := Ne.symm (staging_ne_final dir name)
  refine ⟨fun k => ?_, ?_, ?_⟩
  · exact runTrace_stable _ _ hfe _ fs fun op hop => ht op (List.take_subset k t hop)
  · exact runTrace_stable _ _ hfe _ fs ht
  · intro hmem
    rcases ht _ hmem with h | ⟨c, h⟩ <;> simp at h

theorem DF_shape (env : Env) (url dir name : GoStr) (hname : getFileName url = .ok name) :
    ((DownloadFile env url dir).result ≠ .ok
      ∧ ∀ op ∈ (DownloadFile env url dir).trace,
          op = FsOp.create (stagingPath dir name)
          ∨ ∃ c, op = FsOp.write (stagingPath dir name) c)
    ∨ ((DownloadFile env url dir).result = .ok
      ∧ (DownloadFile env url dir).trace
          = FsOp.create (stagingPath dir name)
              :: (env.chunks.map (FsOp.write (stagingPath dir name))
                ++ [FsOp.rename (stagingPath dir name) (finalPath dir name)])) := by
  cases h1 : env.createOk with
  | false =>
    left
    rw [DF_createFail env url dir name hname h1]
    simp
  | true =>
    cases h2 : env.getOk with
    | false =>
      left
      rw [DF_getFail env url dir name hname h1 h2]
      simp
    | true =>
      cases h3 : copyFlag env with
      | false =>
        left
        rw [DF_writeFail env url dir name hname h1 h2 h3]
        exact ⟨by simp, fun op hop => wops_mem env dir name op hop⟩
      | true =>
        cases h4 : env.bodyTruncErr with
        | true =>
          left
          rw [DF_readFail env url dir name hname h1 h2 h3 h4]
          exact ⟨by simp, fun op hop => wops_mem env dir name op hop⟩
        | false =>
          cases h5 : env.renameOk with
          | false =>
            left
            rw [DF_renameFail env url dir name hname h1 h2 h3 h4 h5]
            exact ⟨by simp, fun op hop => wops_mem env dir name op hop⟩
          | true =>
            right
            rw [DF_allOk env url dir name hname h1 h2 h3 h4 h5]
            refine ⟨rfl, ?_⟩
            simp [wopsOf, copyWritten_of_flag env h3]

/-- C1: the file under the final name is never partially written.  In every
environment, every chunk write of `DownloadFile` targets the staging file;
the rename (staging to final) is present exactly when the download
succeeds, in which case the trace is create, all chunk writes, then the
single final rename; every proper prefix of the trace leaves the final path
unchanged (so an observer only ever sees the pre-existing state there); the
final path holds the complete body after a successful run and is untouched
otherwise. -/
theorem C1_final_name_atomic (env : Env) (url dir : GoStr) (fs : FS) (name : GoStr)
    (hname : getFileName url = .ok name) :
    (∀ op ∈ (DownloadFile env url dir).trace,
        op = FsOp.create (stagingPath dir name)
        ∨ (∃ c, op = FsOp.write (stagingPath dir name) c)
        ∨ op = FsOp.rename (stagingPath dir name) (finalPath dir name))
    ∧ ((DownloadFile env url dir).result = .ok ↔
        FsOp.rename (stagingPath dir name) (finalPath dir name)
          ∈ (DownloadFile env url dir).trace)
    ∧ ((DownloadFile env url dir).result = .ok →
        (DownloadFile env url dir).trace
          = FsOp.create (stagingPath dir name)
              :: (env.chunks.map (FsOp.write (stagingPath dir name))
                ++ [FsOp.rename (stagingPath dir name) (finalPath dir name)]))
    ∧ (∀ k < (DownloadFile env url dir).trace.length,
        runTrace fs ((DownloadFile env url dir).trace.take k) (finalPath dir name)
          = fs (finalPath dir name))
    ∧ ((DownloadFile env url dir).result = .ok →
        runTrace fs (DownloadFile env url dir).trace (finalPath dir name)
          = some env.chunks.flatten)
    ∧ ((DownloadFile env url dir).result ≠ .ok →
        runTrace fs (DownloadFile env url dir).trace (finalPath dir name)
          = fs (finalPath dir name)) := by
  have hfe : finalPath dir name ≠ stagingPath dir name := Ne.symm (staging_ne_final dir name)
  rcases DF_shape env url dir name hname with ⟨hres, hops⟩ | ⟨hres, htr⟩
  · obtain ⟨hpre, hfull, hnren⟩ := errTrace_props fs dir name _ hops
    refine ⟨fun op hop => ?_, ⟨fun hok => absurd hok hres, fun hmem => absurd hmem hnren⟩,
      fun hok => absurd hok hres, fun k _ => hpre k, fun hok => absurd hok hres,
      fun _ => hfull⟩
    rcases hops op hop with h | ⟨c, h⟩
    · exact Or.inl h
    · exact Or.inr (Or.inl ⟨c, h⟩)
  · have hLops : ∀ op ∈ FsOp.create (stagingPath dir name)
          :: env.chunks.map (FsOp.write (stagingPath dir name)),
        op = FsOp.create (stagingPath dir name)
        ∨ ∃ c, op = FsOp.write (stagingPath dir name) c := by
      intro op hop
      rcases List.mem_cons.mp hop with h | h
      · exact Or.inl h
      · rcases List.mem_map.mp h with ⟨c, _, hc⟩
        exact Or.inr ⟨c, hc.symm⟩
    have hsplit : FsOp.create (stagingPath dir name)
          :: (env.chunks.map (FsOp.write (stagingPath dir name))
            ++ [FsOp.rename (stagingPath dir name) (finalPath dir name)])
        = (FsOp.create (stagingPath dir name)
            :: env.chunks.map (FsOp.write (stagingPath dir name)))
          ++ [FsOp.rename (stagingPath dir name) (finalPath dir name)] := by
      simp
    refine ⟨?_, ⟨fun _ => by rw [htr]; simp, fun _ => hres⟩, fun _ => htr, ?_, fun _ => ?_,
      fun hne => absurd hres hne⟩
    · intro op hop
      rw [htr] at hop
      rcases List.mem_cons.mp hop with h | hop2
      · exact Or.inl h
      · rcases List.mem_append.mp hop2 with h | h
        · rcases List.mem_map.mp h with ⟨c, _, hc⟩
          exact Or.inr (Or.inl ⟨c, hc.symm⟩)
        · exact Or.inr (Or.inr (List.mem_singleton.mp h))
    · intro k hk
      rw [htr] at hk ⊢
      rw [hsplit] at hk ⊢
      have hkle : k ≤ (FsOp.create (stagingPath dir name)
          :: env.chunks.map (FsOp.write (stagingPath dir name))).length := by
        rw [List.length_append] at hk
        simp at hk ⊢
        omega
      rw [List.take_append_of_le_length hkle]
      exact runTrace_stable _ _ hfe _ fs fun op hop =>
        hLops op (List.take_subset k _ hop)
    · rw [htr, hsplit]
      have hstep : runTrace fs
            ((FsOp.create (stagingPath dir name)
              :: env.chunks.map (FsOp.write (stagingPath dir name)))
            ++ [FsOp.rename (stagingPath dir name) (finalPath dir name)])
            (finalPath dir name)
          = applyOp (runTrace fs (FsOp.create (stagingPath dir name)
              :: env.chunks.map (FsOp.write (stagingPath dir name))))
              (FsOp.rename (stagingPath dir name) (finalPath dir name))
              (finalPath dir name) := by
        simp [runTrace, List.foldl_append]
      rw [hstep]
      have happ : applyOp (runTrace fs (FsOp.create (stagingPath dir name)
            :: env.chunks.map (FsOp.write (stagingPath dir name))))
            (FsOp.rename (stagingPath dir name) (finalPath dir name))
            (finalPath dir name)
          = runTrace fs (FsOp.create (stagingPath dir name)
              :: env.chunks.map (FsOp.write (stagingPath dir name)))
              (stagingPath dir name) := by
        simp [applyOp]
      rw [happ]
      have hcreate : applyOp fs (FsOp.create (stagingPath dir name)) (stagingPath dir name)
          = some [] := by simp [applyOp]
      calc runTrace fs (FsOp.create (stagingPath dir name)
            :: env.chunks.map (FsOp.write (stagingPath dir name))) (stagingPath dir name)
          = runTrace (applyOp fs (FsOp.create (stagingPath dir name)))
              (env.chunks.map (FsOp.write (stagingPath dir name))) (stagingPath dir name) := rfl
        _ = some ([] ++ env.chunks.flatten) := runTrace_writes _ _ _ _ hcreate
        _ = some env.chunks.flatten := by simp

theorem C1_final_name_atomic_witness :
    getFileName (str "https://x.test/img/42.png") = .ok (str "42.png")
    ∧ ((∀ op ∈ (DownloadFile ⟨true, true, [[1, 2], [3]], false, fun _ => true, true⟩
            (str "https://x.test/img/42.png") (str "/tmp/out")).trace,
          op = FsOp.create (stagingPath (str "/tmp/out") (str "42.png"))
          ∨ (∃ c, op = FsOp.write (stagingPath (str "/tmp/out") (str "42.png")) c)
          ∨ op = FsOp.rename (stagingPath (str "/tmp/out") (str "42.png"))
              (finalPath (str "/tmp/out") (str "42.png")))
      ∧ ((DownloadFile ⟨true, true, [[1, 2], [3]], false, fun _ => true, true⟩
            (str "https://x.test/img/42.png") (str "/tmp/out")).result = .ok ↔
          FsOp.rename (stagingPath (str "/tmp/out") (str "42.png"))
              (finalPath (str "/tmp/out") (str "42.png"))
            ∈ (DownloadFile ⟨true, true, [[1, 2], [3]], false, fun _ => true, true⟩
                (str "https://x.test/img/42.png") (str "/tmp/out")).trace)
      ∧ ((DownloadFile ⟨true, true, [[1, 2], [3]], false, fun _ => true, true⟩
            (str "https://x.test/img/42.png") (str "/tmp/out")).result = .ok →
          (DownloadFile ⟨true, true, [[1, 2], [3]], false, fun _ => true, true⟩
              (str "https://x.test/img/42.png") (str "/tmp/out")).trace
            = FsOp.create (stagingPath (str "/tmp/out") (str "42.png"))
                :: (([[1, 2], [3]] : List (List Nat)).map
                      (FsOp.write (stagingPath (str "/tmp/out") (str "42.png")))
                  ++ [FsOp.rename (stagingPath (str "/tmp/out") (str "42.png"))
                        (finalPath (str "/tmp/out") (str "42.png"))]))
      ∧ (∀ k < (DownloadFile ⟨true, true, [[1, 2], [3]], false, fun _ => true, true⟩
            (str "https://x.test/img/42.png") (str "/tmp/out")).trace.length,
          runTrace (fun _ => none)
              ((DownloadFile ⟨true, true, [[1, 2], [3]], false, fun _ => true, true⟩
                (str "https://x.test/img/42.png") (str "/tmp/out")).trace.take k)
              (finalPath (str "/tmp/out") (str "42.png"))
            = (fun _ => none : FS) (finalPath (str "/tmp/out") (str "42.png")))
      ∧ ((DownloadFile ⟨true, true, [[1, 2], [3]], false, fun _ => true, true⟩
            (str "https://x.test/img/42.png") (str "/tmp/out")).result = .ok →
          runTrace (fun _ => none)
              (DownloadFile ⟨true, true, [[1, 2], [3]], false, fun _ => true, true⟩
                (str "https://x.test/img/42.png") (str "/tmp/out")).trace
              (finalPath (str "/tmp/out") (str "42.png"))
            = some ([[1, 2], [3]] : List (List Nat)).flatten)
      ∧ ((DownloadFile ⟨true, true, [[1, 2], [3]], false, fun _ => true, true⟩
            (str "https://x.test/img/42.png") (str "/tmp/out")).result ≠ .ok →
          runTrace (fun _ => none)
              (DownloadFile ⟨true, true, [[1, 2], [3]], false, fun _ => true, true⟩
                (str "https://x.test/img/42.png") (str "/tmp/out")).trace
              (finalPath (str "/tmp/out") (str "42.png"))
            = (fun _ => none : FS) (finalPath (str "/tmp/out") (str "42.png")))) :=
  ⟨by decide,
    C1_final_name_atomic ⟨true, true, [[1, 2], [3]], false, fun _ => true, true⟩
      (str "https://x.test/img/42.png") (str "/tmp/out") (fun _ => none)
      (str "42.png") (by decide)⟩

/-- C2 (amended): after a successful download the byte counter holds the
body length reduced modulo `2 ^ 64` (the counter is a Go `uint64`), and
hence the exact byte length of the source body whenever that length is
below `2 ^ 64`. -/
theorem C2_counter_equals_body_length (env : Env) (url dir name : GoStr)
    (hname : getFileName url = .ok name)
    (hok : (DownloadFile env url dir).result = .ok) :
    (DownloadFile env url dir).counter = env.chunks.flatten.length % M64
    ∧ (env.chunks.flatten.length < M64 →
        (DownloadFile env url dir).counter = env.chunks.flatten.length) := by
  cases h1 : env.createOk with
  | false => rw [DF_createFail env url dir name hname h1] at hok; simp at hok
  | true =>
    cases h2 : env.getOk with
    | false => rw [DF_getFail env url dir name hname h1 h2] at hok; simp at hok
    | true =>
      cases h3 : copyFlag env with
      | false => rw [DF_writeFail env url dir name hname h1 h2 h3] at hok; simp at hok
      | true =>
        cases h4 : env.bodyTruncErr with
        | true => rw [DF_readFail env url dir name hname h1 h2 h3 h4] at hok; simp at hok
        | false =>
          cases h5 : env.renameOk with
          | false =>
            rw [DF_renameFail env url dir name hname h1 h2 h3 h4 h5] at hok; simp at hok
          | true =>
            rw [DF_allOk env url dir name hname h1 h2 h3 h4 h5]
            have hcnt := copyCounter_of_flag env h3
            have hflat : env.chunks.flatten.length = (env.chunks.map List.length).sum :=
              List.length_flatten env.chunks
            constructor
            · simp only []
              rw [hcnt, hflat]
            · intro hlt
              have hlt2 : (env.chunks.map List.length).sum < M64 := hflat ▸ hlt
              simp only []
              rw [hcnt, hflat, Nat.mod_eq_of_lt hlt2]

theorem C2_counter_equals_body_length_witness :
    getFileName (str "https://x.test/img/42.png") = .ok (str "42.png")
    ∧ (DownloadFile ⟨true, true, [[1, 2], [3]], false, fun _ => true, true⟩
        (str "https://x.test/img/42.png") (str "/tmp/out")).result = .ok
    ∧ ((DownloadFile ⟨true, true, [[1, 2], [3]], false, fun _ => true, true⟩
          (str "https://x.test/img/42.png") (str "/tmp/out")).counter
        = ([[1, 2], [3]] : List (List Nat)).flatten.length % M64
      ∧ (([[1, 2], [3]] : List (List Nat)).flatten.length < M64 →
          (DownloadFile ⟨true, true, [[1, 2], [3]], false, fun _ => true, true⟩
            (str "https://x.test/img/42.png") (str "/tmp/out")).counter
            = ([[1, 2], [3]] : List (List Nat)).flatten.length)) :=
  ⟨by decide, by decide,
    C2_counter_equals_body_length ⟨true, true, [[1, 2], [3]], false, fun _ => true, true⟩
      (str "https://x.test/img/42.png") (str "/tmp/out") (str "42.png")
      (by decide) (by decide)⟩

/-- C2 counterexample: the counter is a `uint64` and wraps.  For a
successful download whose body is exactly `2 ^ 64` bytes (two chunks of
`2 ^ 63` zero bytes), the download succeeds but the final counter is 0,
not the body length — refuting the unconditional claim that the counter
equals the exact byte length of the body. -/
theorem C2_counterexample_counter_wraps :
    (DownloadFile ⟨true, true, [List.replicate (2 ^ 63) 0, List.replicate (2 ^ 63) 0],
          false, fun _ => true, true⟩
        (str "https://x.test/img/42.png") (str "/tmp/out")).result = .ok
    ∧ (DownloadFile ⟨true, true, [List.replicate (2 ^ 63) 0, List.replicate (2 ^ 63) 0],
          false, fun _ => true, true⟩
        (str "https://x.test/img/42.png") (str "/tmp/out")).counter = 0
    ∧ ([List.replicate (2 ^ 63) (0 : Nat),
        List.replicate (2 ^ 63) 0] : List (List Nat)).flatten.length = 2 ^ 64 := by
  have hname : getFileName (str "https://x.test/img/42.png") = .ok (str "42.png") := by
    decide
  have hflag : copyFlag ⟨true, true,
      [List.replicate (2 ^ 63) 0, List.replicate (2 ^ 63) 0],
      false, fun _ => true, true⟩ = true :=
    copyLoop_flag_of_writeOk (fun _ => true) (fun _ => rfl)
      [List.replicate (2 ^ 63) 0, List.replicate (2 ^ 63) 0] 0 0
  refine ⟨?_, ?_, ?_⟩
  · rw [DF_allOk _ _ _ _ hname rfl rfl hflag rfl rfl]
  · rw [DF_allOk _ _ _ _ hname rfl rfl hflag rfl rfl]
    show copyCounter ⟨true, true,
        [List.replicate (2 ^ 63) 0, List.replicate (2 ^ 63) 0],
        false, fun _ => true, true⟩ = 0
    rw [copyCounter_of_flag _ hflag]
    rw [show (⟨true, true, [List.replicate (2 ^ 63) 0, List.replicate (2 ^ 63) 0],
          false, fun _ => true, true⟩ : Env).chunks
        = [List.replicate (2 ^ 63) 0, List.replicate (2 ^ 63) 0] from rfl]
    rw [List.map_cons, List.map_cons, List.map_nil, List.length_replicate]
    rw [List.sum_cons, List.sum_cons, List.sum_nil]
    rw [show M64 = 2 ^ 64 from rfl]
    norm_num
  · rw [List.length_flatten]
    rw [List.map_cons, List.map_cons, List.map_nil, List.length_replicate]
    rw [List.sum_cons, List.sum_cons, List.sum_nil]
    norm_num

/-- C3: whenever some step of a Transfer fails, `DownloadFile` returns the
error of the first failing step (each failure source surfacing as its own
`DLErr` variant), the final name is left untouched (no partial commit), and
the staging file holds exactly the chunk prefix written before the failure
(it does not exist at all when creation itself failed); a configuration
error — wrong argument count — is surfaced separately by `main` as a usage
exit before any Transfer is attempted. -/
theorem C3_distinct_failures_no_partial_commit (env : Env) (url dir : GoStr) (fs : FS)
    (name : GoStr) (hname : getFileName url = .ok name) (hfail : failEnv env = true) :
    (DownloadFile env url dir).result = .err (failureKind env)
    ∧ runTrace fs (DownloadFile env url dir).trace (finalPath dir name)
        = fs (finalPath dir name)
    ∧ (env.createOk = false → (DownloadFile env url dir).trace = [])
    ∧ (env.createOk = true → env.getOk = false →
        runTrace fs (DownloadFile env url dir).trace (stagingPath dir name) = some [])
    ∧ (env.createOk = true → env.getOk = true →
        copyWritten env ≤ env.chunks.length
        ∧ runTrace fs (DownloadFile env url dir).trace (stagingPath dir name)
            = some ((env.chunks.take (copyWritten env)).flatten))
    ∧ (∀ (menv : MainEnv) (margs : List GoStr), margs.length ≠ 3 →
        mainRun menv margs = ⟨.usageExit, false, false⟩) := by
  have hfe : finalPath dir name ≠ stagingPath dir name := Ne.symm (staging_ne_final dir name)
  have hmain : ∀ (menv : MainEnv) (margs : List GoStr), margs.length ≠ 3 →
      mainRun menv margs = ⟨.usageExit, false, false⟩ := by
    intro menv margs h
    simp [mainRun, h]
  have hwle := copyWritten_le env
  cases h1 : env.createOk with
  | false =>
    rw [DF_createFail env url dir name hname h1]
    refine ⟨by simp [failureKind, h1], rfl, fun _ => rfl, ?_, ?_, hmain⟩
    · intro hc; exact absurd hc (by simp)
    · intro hc; exact absurd hc (by simp)
  | true =>
    cases h2 : env.getOk with
    | false =>
      rw [DF_getFail env url dir name hname h1 h2]
      refine ⟨by simp [failureKind, h1, h2], ?_, ?_, ?_, ?_, hmain⟩
      · simp [runTrace, applyOp, hfe]
      · intro hc; exact absurd hc (by simp)
      · intro _ _; simp [runTrace, applyOp]
      · intro _ hg; exact absurd hg (by simp)
    | true =>
      cases h3 : copyFlag env with
      | false =>
        rw [DF_writeFail env url dir name hname h1 h2 h3]
        refine ⟨by simp [failureKind, h1, h2, h3],
          wops_other env dir name fs _ hfe, ?_, ?_,
          fun _ _ => ⟨hwle, wops_staging env dir name fs⟩, hmain⟩
        · intro hc; exact absurd hc (by simp)
        · intro _ hg; exact absurd hg (by simp)
      | true =>
        cases h4 : env.bodyTruncErr with
        | true =>
          rw [DF_readFail env url dir name hname h1 h2 h3 h4]
          refine ⟨by simp [failureKind, h1, h2, h3, h4],
            wops_other env dir name fs _ hfe, ?_, ?_,
            fun _ _ => ⟨hwle, wops_staging env dir name fs⟩, hmain⟩
          · intro hc; exact absurd hc (by simp)
          · intro _ hg; exact absurd hg (by simp)
        | false =>
          cases h5 : env.renameOk with
          | false =>
            rw [DF_renameFail env url dir name hname h1 h2 h3 h4 h5]
            refine ⟨by simp [failureKind, h1, h2, h3, h4, h5],
              wops_other env dir name fs _ hfe, ?_, ?_,
              fun _ _ => ⟨hwle, wops_staging env dir name fs⟩, hmain⟩
            · intro hc; exact absurd hc (by simp)
            · intro _ hg; exact absurd hg (by simp)
          | true =>
            simp [failEnv, h1, h2, h3, h4, h5] at hfail

theorem C3_distinct_failures_no_partial_commit_witness :
    getFileName (str "https://x.test/img/42.png") = .ok (str "42.png")
    ∧ failEnv ⟨true, true, [List.replicate 1024 7], true, fun _ => true, true⟩ = true
    ∧ ((DownloadFile ⟨true, true, [List.replicate 1024 7], true, fun _ => true, true⟩
          (str "https://x.test/img/42.png") (str "/tmp/out")).result
        = .err (failureKind ⟨true, true, [List.replicate 1024 7], true, fun _ => true, true⟩)
      ∧ runTrace (fun _ => none)
          (DownloadFile ⟨true, true, [List.replicate 1024 7], true, fun _ => true, true⟩
            (str "https://x.test/img/42.png") (str "/tmp/out")).trace
          (finalPath (str "/tmp/out") (str "42.png"))
        = (fun _ => none : FS) (finalPath (str "/tmp/out") (str "42.png"))
      ∧ ((⟨true, true, [List.replicate 1024 7], true, fun _ => true, true⟩ : Env).createOk
            = false →
          (DownloadFile ⟨true, true, [List.replicate 1024 7], true, fun _ => true, true⟩
            (str "https://x.test/img/42.png") (str "/tmp/out")).trace = [])
      ∧ ((⟨true, true, [List.replicate 1024 7], true, fun _ => true, true⟩ : Env).createOk
            = true →
          (⟨true, true, [List.replicate 1024 7], true, fun _ => true, true⟩ : Env).getOk
            = false →
          runTrace (fun _ => none)
            (DownloadFile ⟨true, true, [List.replicate 1024 7], true, fun _ => true, true⟩
              (str "https://x.test/img/42.png") (str "/tmp/out")).trace
            (stagingPath (str "/tmp/out") (str "42.png")) = some [])
      ∧ ((⟨true, true, [List.replicate 1024 7], true, fun _ => true, true⟩ : Env).createOk
            = true →
          (⟨true, true, [List.replicate 1024 7], true, fun _ => true, true⟩ : Env).getOk
            = true →
          copyWritten ⟨true, true, [List.replicate 1024 7], true, fun _ => true, true⟩
              ≤ (⟨true, true, [List.replicate 1024 7], true, fun _ => true, true⟩
                  : Env).chunks.length
          ∧ runTrace (fun _ => none)
              (DownloadFile ⟨true, true, [List.replicate 1024 7], true, fun _ => true, true⟩
                (str "https://x.test/img/42.png") (str "/tmp/out")).trace
              (stagingPath (str "/tmp/out") (str "42.png"))
            = some (((⟨true, true, [List.replicate 1024 7], true, fun _ => true, true⟩
                : Env).chunks.take
                (copyWritten ⟨true, true, [List.replicate 1024 7], true,
                  fun _ => true, true⟩)).flatten))
      ∧ (∀ (menv : MainEnv) (margs : List GoStr), margs.length ≠ 3 →
          mainRun menv margs = ⟨.usageExit, false, false⟩)) :=
  ⟨by decide, by decide,
    C3_distinct_failures_no_partial_commit
      ⟨true, true, [List.replicate 1024 7], true, fun _ => true, true⟩
      (str "https://x.test/img/42.png") (str "/tmp/out") (fun _ => none)
      (str "42.png") (by decide) (by decide)⟩

/-- C5 counterexample: the staging file is not removed on every exit path.
When `http.Get` fails right after the staging file was created, the
download returns a network error and the (empty) staging file
`/tmp/out/42.png.tmp` remains on disk — refuting the claim that no staging
file remains after `DownloadFile` returns on every exit path. -/
theorem C5_counterexample_staging_left_on_error :
    (DownloadFile ⟨true, false, [], false, fun _ => true, true⟩
        (str "https://x.test/img/42.png") (str "/tmp/out")).result
      = .err .networkErr
    ∧ runTrace (fun _ => none)
        (DownloadFile ⟨true, false, [], false, fun _ => true, true⟩
          (str "https://x.test/img/42.png") (str "/tmp/out")).trace
        (stagingPath (str "/tmp/out") (str "42.png"))
      = some [] :=
  ⟨by decide, by decide⟩

/-- C5 (amended): the staging file is renamed away on the successful exit
path — after a successful `DownloadFile` no staging file remains — while on
every error exit path reached after the staging file was created, the
staging file remains on disk (the code leaves it for external cleanup). -/
theorem C5_staging_removed_only_on_success (env : Env) (url dir : GoStr) (fs : FS)
    (name : GoStr) (hname : getFileName url = .ok name) :
    ((DownloadFile env url dir).result = .ok →
        runTrace fs (DownloadFile env url dir).trace (stagingPath dir name) = none)
    ∧ (∀ e : DLErr, (DownloadFile env url dir).result = .err e →
        env.createOk = true →
        ∃ bs, runTrace fs (DownloadFile env url dir).trace (stagingPath dir name)
          = some bs) := by
  constructor
  · intro hok
    rcases DF_shape env url dir name hname with ⟨hres, _⟩ | ⟨_, htr⟩
    · exact absurd hok hres
    · rw [htr]
      have hsplit : FsOp.create (stagingPath dir name)
            :: (env.chunks.map (FsOp.write (stagingPath dir name))
              ++ [FsOp.rename (stagingPath dir name) (finalPath dir name)])
          = (FsOp.create (stagingPath dir name)
              :: env.chunks.map (FsOp.write (stagingPath dir name)))
            ++ [FsOp.rename (stagingPath dir name) (finalPath dir name)] := by
        simp
      rw [hsplit]
      have hstep : runTrace fs
            ((FsOp.create (stagingPath dir name)
              :: env.chunks.map (FsOp.write (stagingPath dir name)))
            ++ [FsOp.rename (stagingPath dir name) (finalPath dir name)])
            (stagingPath dir name)
          = applyOp (runTrace fs (FsOp.create (stagingPath dir name)
              :: env.chunks.map (FsOp.write (stagingPath dir name))))
              (FsOp.rename (stagingPath dir name) (finalPath dir name))
              (stagingPath dir name) := by
        simp [runTrace, List.foldl_append]
      rw [hstep]
      simp [applyOp, staging_ne_final dir name]
  · intro e he hc
    cases h2 : env.getOk with
    | false =>
      rw [DF_getFail env url dir name hname hc h2]
      exact ⟨[], by simp [runTrace, applyOp]⟩
    | true =>
      cases h3 : copyFlag env with
      | false =>
        rw [DF_writeFail env url dir name hname hc h2 h3]
        exact ⟨_, wops_staging env dir name fs⟩
      | true =>
        cases h4 : env.bodyTruncErr with
        | true =>
          rw [DF_readFail env url dir name hname hc h2 h3 h4]
          exact ⟨_, wops_staging env dir name fs⟩
        | false =>
          cases h5 : env.renameOk with
          | false =>
            rw [DF_renameFail env url dir name hname hc h2 h3 h4 h5]
            exact ⟨_, wops_staging env dir name fs⟩
          | true =>
            rw [DF_allOk env url dir name hname hc h2 h3 h4 h5] at he
            exact absurd he (by simp)

theorem C5_staging_removed_only_on_success_witness :
    getFileName (str "https://x.test/img/42.png") = .ok (str "42.png")
    ∧ (((DownloadFile ⟨true, true, [[1, 2], [3]], false, fun _ => true, true⟩
            (str "https://x.test/img/42.png") (str "/tmp/out")).result = .ok →
          runTrace (fun _ => none)
              (DownloadFile ⟨true, true, [[1, 2], [3]], false, fun _ => true, true⟩
                (str "https://x.test/img/42.png") (str "/tmp/out")).trace
              (stagingPath (str "/tmp/out") (str "42.png")) = none)
      ∧ (∀ e : DLErr,
          (DownloadFile ⟨true, true, [[1, 2], [3]], false, fun _ => true, true⟩
              (str "https://x.test/img/42.png") (str "/tmp/out")).result = .err e →
          (⟨true, true, [[1, 2], [3]], false, fun _ => true, true⟩ : Env).createOk = true →
          ∃ bs, runTrace (fun _ => none)
              (DownloadFile ⟨true, true, [[1, 2], [3]], false, fun _ => true, true⟩
                (str "https://x.test/img/42.png") (str "/tmp/out")).trace
              (stagingPath (str "/tmp/out") (str "42.png"))
            = some bs)) :=
  ⟨by decide,
    C5_staging_removed_only_on_success
      ⟨true, true, [[1, 2], [3]], false, fun _ => true, true⟩
      (str "https://x.test/img/42.png") (str "/tmp/out") (fun _ => none)
      (str "42.png") (by decide)⟩
